import Mathlib

/-!
Verification development for the trace-reconstruction and privacy-metric
engine of a V2X location-privacy evaluation tool
(scripts/python/metrics: trace.py, types.py, utilities.py,
degree_of_anonymity.py, pseudonym_consumption.py, static_attacker.py).

Conventions of the shallow embedding:
* Python integers become ℤ (or ℕ for counts), exact-arithmetic code is
  translated to computable Lean functions.
* Python floats become ℝ.  Real-valued quantities built from trigonometric
  or logarithmic functions appear only inside Prop-valued definitions
  (as local lets) or as functional relations, so every definition stays
  computable; claims about those quantities are stated on the relations.
* A Python dict is an association list whose keys are unique by
  construction; updating an existing key keeps its position, a new key is
  appended at the end (insertion order, as in CPython).
* A Python set of integers is a Finset ℤ (unordered, deduplicated) when
  only membership and cardinality matter, and a plain list with membership
  tests when the source iterates it.
-/

/-- One decoded CAM beacon observation (metrics/utilities.py, class CAM).
All fields are integers in the source log: timestamp in ms, positions in
microdegrees, width and length in cm, speed in cm per s, heading in
decidegrees. -/
structure CAM where
  timestamp : ℤ
  static_id : ℤ
  pseudo_id : ℤ
  longitude : ℤ
  latitude : ℤ
  width : ℤ
  length : ℤ
  speed : ℤ
  heading : ℤ
deriving DecidableEq, Repr

/-- A geographic location at a point in time (metrics/types.py, class
Position). -/
structure Position where
  longitude : ℤ
  latitude : ℤ
  timestamp : ℤ
deriving DecidableEq, Repr

/-- Position.__eq__ compares longitude and latitude ONLY; the timestamp is
ignored (metrics/types.py lines 17-24). -/
def posEq (a b : Position) : Bool :=
  a.longitude == b.longitude && a.latitude == b.latitude

/-- An estimated (attacker-reconstructed) route (trace.py, class
VehicleDynamicId).  The parallel lists grow together; width and length are
fixed at creation and never updated. -/
structure VehicleDynamicId where
  pseudo_id : List ℤ
  static_id : ℤ
  width : ℤ
  length : ℤ
  longitude : List ℤ
  latitude : List ℤ
  speed : List ℤ
  heading : List ℤ
  timestamps : List ℤ
  duration : ℤ
deriving DecidableEq, Repr

/-- VehicleDynamicId.__init__: every list starts as a singleton from the
seeding CAM and duration starts at 0. -/
def mkDynamic (cam : CAM) : VehicleDynamicId :=
  { pseudo_id := [cam.pseudo_id]
    static_id := cam.static_id
    width := cam.width
    length := cam.length
    longitude := [cam.longitude]
    latitude := [cam.latitude]
    speed := [cam.speed]
    heading := [cam.heading]
    timestamps := [cam.timestamp]
    duration := 0 }

/-- VehicleDynamicId.compare_id: the current identity of a candidate track
is its LAST pseudonym (self.pseudo_id[-1] == new_id).  The lists are
nonempty by construction, so the default of getLastD is never read. -/
def compare_id (v : VehicleDynamicId) (new_id : ℤ) : Bool :=
  v.pseudo_id.getLastD 0 == new_id

/-- VehicleDynamicId.compare_parameters: shape test
(length_new == self.length and width_new == self.width). -/
def compare_parameters (v : VehicleDynamicId) (length_new width_new : ℤ) : Bool :=
  length_new == v.length && width_new == v.width

/-- VehicleDynamicId.update_parameters: append the new kinematic state and
add (new timestamp - previous timestamp) to the cumulative duration. -/
def update_parameters (v : VehicleDynamicId) (cam : CAM) : VehicleDynamicId :=
  { v with
    speed := v.speed ++ [cam.speed]
    heading := v.heading ++ [cam.heading]
    longitude := v.longitude ++ [cam.longitude]
    latitude := v.latitude ++ [cam.latitude]
    pseudo_id := v.pseudo_id ++ [cam.pseudo_id]
    duration := v.duration + (cam.timestamp - v.timestamps.getLastD 0)
    timestamps := v.timestamps ++ [cam.timestamp] }

/-- VehicleDynamicId.get_positions: zip the longitude, latitude and
timestamp lists into Position records (zip truncates to the shortest list,
exactly like Python zip; the three lists always have equal length). -/
def get_positions_dynamic (v : VehicleDynamicId) : List Position :=
  (v.longitude.zip (v.latitude.zip v.timestamps)).map
    (fun x => { longitude := x.1, latitude := x.2.1, timestamp := x.2.2 })

/-- An original (ground-truth) route (trace.py, class VehicleConstantId). -/
structure VehicleConstantId where
  static_id : ℤ
  longitude : List ℤ
  latitude : List ℤ
  timestamps : List ℤ
  duration : ℤ
deriving DecidableEq, Repr

/-- VehicleConstantId.__init__. -/
def mkConstant (static_id longitude latitude timestamp : ℤ) : VehicleConstantId :=
  { static_id := static_id
    longitude := [longitude]
    latitude := [latitude]
    timestamps := [timestamp]
    duration := 0 }

/-- VehicleConstantId.try_update_parameters: on a static-id match, append
the position and timestamp, add (timestamp - self.timestamps[-1]) to the
duration and report True; otherwise leave the vehicle unchanged and report
False.  The Python method mutates in place; here the updated record is
returned together with the Bool. -/
def try_update_parameters (v : VehicleConstantId) (id longitude latitude timestamp : ℤ) :
    VehicleConstantId × Bool :=
  if id ≠ v.static_id then (v, false)
  else
    ({ v with
        longitude := v.longitude ++ [longitude]
        latitude := v.latitude ++ [latitude]
        duration := v.duration + (timestamp - v.timestamps.getLastD 0)
        timestamps := v.timestamps ++ [timestamp] }, true)

/-- VehicleConstantId.get_positions. -/
def get_positions_constant (v : VehicleConstantId) : List Position :=
  (v.longitude.zip (v.latitude.zip v.timestamps)).map
    (fun x => { longitude := x.1, latitude := x.2.1, timestamp := x.2.2 })

/-- Recursion underlying VehicleDynamicId.get_trace_duration: the loop
`for i in range(1, min(len(traced), len(original)))` compares the traced
and original positions at index i (index 0 is never compared), breaks at
the first mismatch and otherwise accumulates the ORIGINAL timestamp delta
original[i].timestamp - original[i-1].timestamp. -/
def get_trace_duration_aux : List Position → List Position → ℤ
  | o0 :: o1 :: os, _t0 :: t1 :: ts =>
      if posEq t1 o1 then (o1.timestamp - o0.timestamp) + get_trace_duration_aux (o1 :: os) (t1 :: ts)
      else 0
  | _, _ => 0

/-- VehicleDynamicId.get_trace_duration(original_positions, traced_positions)
(trace.py lines 160-179). -/
def get_trace_duration (original_positions traced_positions : List Position) : ℤ :=
  get_trace_duration_aux original_positions traced_positions

/-- The allow-list filter at the top of build_routes:
`if vehicles and cam.static_id not in vehicles: continue`.
Python truthiness: a None or empty list disables the filter. -/
def excludedCam (vehicles : Option (List ℤ)) (cam : CAM) : Bool :=
  match vehicles with
  | none => false
  | some l => !l.isEmpty && !(l.contains cam.static_id)

/-- The scanning loop of match_static_vehicle: try to update each known
vehicle in order, stop at the first match; returns the updated list and
whether some vehicle matched. -/
def match_static_vehicle_list (cam : CAM) : List VehicleConstantId → List VehicleConstantId × Bool
  | [] => ([], false)
  | v :: rest =>
      let p := try_update_parameters v cam.static_id cam.longitude cam.latitude cam.timestamp
      if p.2 then (p.1 :: rest, true)
      else
        let q := match_static_vehicle_list cam rest
        (v :: q.1, q.2)

/-- One step of the ground-truth track builder: match_static_vehicle
combined with the append of the returned new vehicle in build_routes. -/
def build_static_step (svs : List VehicleConstantId) (cam : CAM) : List VehicleConstantId :=
  let q := match_static_vehicle_list cam svs
  if q.2 then q.1
  else q.1 ++ [mkConstant cam.static_id cam.longitude cam.latitude cam.timestamp]

/-- The static (ground-truth) half of build_routes. -/
def build_static_routes (vehicles : Option (List ℤ)) (cams : List CAM) : List VehicleConstantId :=
  cams.foldl (fun svs cam => if excludedCam vehicles cam then svs else build_static_step svs cam) []

/-- The original route of a vehicle (metrics/types.py, class
OriginalTrace). -/
structure OriginalTrace where
  static_id : ℤ
  positions : List Position
  duration : ℤ
deriving DecidableEq, Repr

/-- A trace part reconstructed by the static attacker (metrics/types.py,
class ReconstructedTrace). -/
structure ReconstructedTrace where
  static_id : ℤ
  pseudo_ids : List ℤ
  positions : List Position
  duration : ℤ
deriving DecidableEq, Repr

/-- Correlation result for one static id (metrics/types.py, class
VehicleTrace). -/
structure VehicleTrace where
  static_id : ℤ
  original_trace : OriginalTrace
  reconstructed_traces : List ReconstructedTrace
deriving DecidableEq, Repr

/-- Python slicing static_vehicles[:max_vehicles]; max_vehicles = None
keeps the whole list. -/
def takeOpt (max_vehicles : Option ℕ) (l : List VehicleConstantId) : List VehicleConstantId :=
  match max_vehicles with
  | none => l
  | some n => l.take n

/-- Trace correlator get_vehicle_traces (trace.py lines 293-334), taking
the two route lists produced by build_routes: ground-truth tracks with at
most one distinct timestamp are skipped; for the rest, every candidate
track with the same static id and more than one distinct timestamp becomes
a ReconstructedTrace whose duration comes from get_trace_duration; a
vehicle with no such candidate is dropped. -/
def get_vehicle_traces (static_vehicles : List VehicleConstantId)
    (dynamic_vehicles : List VehicleDynamicId) (max_vehicles : Option ℕ) :
    List VehicleTrace :=
  (takeOpt max_vehicles static_vehicles).filterMap (fun original_trace =>
    if original_trace.timestamps.toFinset.card ≤ 1 then none
    else
      let reconstructed_traces :=
        (dynamic_vehicles.filter (fun target_trace =>
            decide (target_trace.static_id = original_trace.static_id ∧
              1 < target_trace.timestamps.toFinset.card))).map
          (fun target_trace =>
            { static_id := original_trace.static_id
              pseudo_ids := target_trace.pseudo_id
              positions := get_positions_dynamic target_trace
              duration := get_trace_duration (get_positions_constant original_trace)
                  (get_positions_dynamic target_trace) : ReconstructedTrace })
      if reconstructed_traces.isEmpty then none
      else some
        { static_id := original_trace.static_id
          original_trace :=
            { static_id := original_trace.static_id
              positions := get_positions_constant original_trace
              duration := original_trace.duration }
          reconstructed_traces := reconstructed_traces })

/-- The tracking-success ratio computed and written per vehicle by
static_attacker.write_success_rate (static_attacker.py lines 280-300):
`max_tracking_duration = vehicle_trace.reconstructed_traces[0].duration`
followed by division by the original-trace duration.  Note the code takes
the FIRST element of reconstructed_traces.  The empty case cannot arise
for traces produced by get_vehicle_traces and would raise in Python. -/
def write_success_rate (vehicle_trace : VehicleTrace) : ℚ :=
  match vehicle_trace.reconstructed_traces with
  | [] => 0
  | r :: _ => (r.duration : ℚ) / (vehicle_trace.original_trace.duration : ℚ)

/-- Modelled from the spec, for comparison with write_success_rate:
tracking success as the MAXIMUM of the reconstructed-fragment durations
divided by the ground-truth duration. -/
def spec_tracking_success (vehicle_trace : VehicleTrace) : ℚ :=
  (((vehicle_trace.reconstructed_traces.map (fun r => r.duration)).foldr max 0 : ℤ) : ℚ) /
    (vehicle_trace.original_trace.duration : ℚ)

/-- Sum of successive deltas of a list of timestamps:
sumDeltas [t0, t1, ..., tn] = (t1 - t0) + (t2 - t1) + ... + (tn - t(n-1)). -/
def sumDeltas : List ℤ → ℤ
  | a :: b :: r => (b - a) + sumDeltas (b :: r)
  | _ => 0

/-- Apply a sequence of try_update_parameters calls to a ground-truth
track (each update is a tuple (id, longitude, latitude, timestamp)). -/
def apply_static_updates (v : VehicleConstantId) (updates : List (ℤ × ℤ × ℤ × ℤ)) :
    VehicleConstantId :=
  updates.foldl (fun v u => (try_update_parameters v u.1 u.2.1 u.2.2.1 u.2.2.2).1) v

/-- Apply a sequence of update_parameters calls to a candidate track. -/
def apply_dynamic_updates (v : VehicleDynamicId) (cams : List CAM) : VehicleDynamicId :=
  cams.foldl update_parameters v

/-- Line-deduplication loop of utilities.remove_duplicates_in_csv
(utilities.py lines 72-86): lines already seen are skipped, unseen lines
are recorded and emitted.  The Python set `seen` is modelled as the list
of recorded lines, queried by membership. -/
def remove_duplicates_loop (seen : List String) : List String → List String
  | [] => []
  | l :: ls => if l ∈ seen then remove_duplicates_loop seen ls
               else l :: remove_duplicates_loop (l :: seen) ls

/-- utilities.remove_duplicates_in_csv as a function from the input file
lines to the output file lines. -/
def remove_duplicates_in_csv (lines : List String) : List String :=
  remove_duplicates_loop [] lines

/-- Modelled from the spec, for comparison with remove_duplicates_in_csv:
the subsequence of first occurrences of the distinct input lines in input
order — a line is kept exactly when it did not already occur in the prefix
of the input walked so far. -/
def keep_first_occurrences_loop (walked : List String) : List String → List String
  | [] => []
  | l :: ls => if l ∈ walked then keep_first_occurrences_loop (walked ++ [l]) ls
               else l :: keep_first_occurrences_loop (walked ++ [l]) ls

/-- The first-occurrence subsequence of a list of lines. -/
def keep_first_occurrences (lines : List String) : List String :=
  keep_first_occurrences_loop [] lines

/-- Insert or bump one pseudonym in the anonymity set
(degree_of_anonymity.calculate_anonymity_set lines 85-90): an existing key
keeps its position and gets count+1 and the new timestamp; an unknown key
is appended with count 1. -/
def bumpAnonymity : List (ℤ × ℕ × ℤ) → ℤ → ℤ → List (ℤ × ℕ × ℤ)
  | [], pseudo_id, ts => [(pseudo_id, 1, ts)]
  | e :: r, pseudo_id, ts =>
      if e.1 = pseudo_id then (pseudo_id, e.2.1 + 1, ts) :: r
      else e :: bumpAnonymity r pseudo_id ts

/-- Main loop of degree_of_anonymity.calculate_anonymity_set (lines
58-107).  State: the association list pseudonym -> (count of CAMs, time of
last CAM) and the timestamp of the last purge (initially 0).  For each
CAM: stop if a nonzero end timestamp is reached; bump the entry; then,
unless a purge already happened at this exact timestamp, drop every entry
whose age exceeds the purge threshold and remember this timestamp. -/
def calculate_anonymity_set_loop (purge_threshold end_timestamp : ℤ) :
    List (ℤ × ℕ × ℤ) → ℤ → List CAM → List (ℤ × ℕ × ℤ)
  | s, _, [] => s
  | s, last_purge, cam :: rest =>
      if end_timestamp ≠ 0 ∧ cam.timestamp ≥ end_timestamp then s
      else
        let s1 := bumpAnonymity s cam.pseudo_id cam.timestamp
        if last_purge = cam.timestamp then
          calculate_anonymity_set_loop purge_threshold end_timestamp s1 last_purge rest
        else
          calculate_anonymity_set_loop purge_threshold end_timestamp
            (s1.filter (fun e => !(cam.timestamp - e.2.2 > purge_threshold)))
            cam.timestamp rest

/-- degree_of_anonymity.calculate_anonymity_set with its default
end_timestamp = 0 made explicit. -/
def calculate_anonymity_set (cams : List CAM) (cam_anonymity_set_purge_threshold : ℤ)
    (end_timestamp : ℤ) : List (ℤ × ℕ × ℤ) :=
  calculate_anonymity_set_loop cam_anonymity_set_purge_threshold end_timestamp [] 0 cams

/-- Total number of CAMs in an anonymity set (the n_total_cams accumulation
in calculate_entropy_and_eass). -/
def totalCams (anonymity_set : List (ℤ × ℕ × ℤ)) : ℕ :=
  (anonymity_set.map (fun e => e.2.1)).sum

/-- Functional graph of degree_of_anonymity.calculate_entropy_and_eass
(lines 110-140): eass is the negated Shannon entropy accumulation
sum of prob * log2 prob over the per-pseudonym probabilities
prob = count / total.  Stated as a relation because the value lives in ℝ. -/
def calculate_entropy_and_eass (anonymity_set : List (ℤ × ℕ × ℤ)) (eass : ℝ) : Prop :=
  eass = -((anonymity_set.map (fun e =>
      ((e.2.1 : ℝ) / (totalCams anonymity_set : ℝ)) *
        Real.logb 2 ((e.2.1 : ℝ) / (totalCams anonymity_set : ℝ)))).sum)

/-- Functional graph of degree_of_anonymity.calculate_degree_of_anonymity
(lines 143-166): the sentinel -1 when the set has at most one member, and
eass divided by the maximal entropy log2 of the set size otherwise. -/
def calculate_degree_of_anonymity (anonymity_set : List (ℤ × ℕ × ℤ)) (eass d : ℝ) : Prop :=
  if anonymity_set.length ≤ 1 then d = -1
  else d = eass / Real.logb 2 (anonymity_set.length : ℝ)

/-- One step of the grouping loop in
pseudonym_consumption.calculate_pseudonym_consumption (lines 60-63):
`pseudonyms_per_id.setdefault(cam.static_id, set()).add(cam.pseudo_id)`.
An existing static id keeps its position; a new one is appended. -/
def addCamToGroups : List (ℤ × Finset ℤ) → CAM → List (ℤ × Finset ℤ)
  | [], cam => [(cam.static_id, {cam.pseudo_id})]
  | e :: r, cam =>
      if e.1 = cam.static_id then (e.1, insert cam.pseudo_id e.2) :: r
      else e :: addCamToGroups r cam

/-- The dict static id -> set of pseudonym ids built by
calculate_pseudonym_consumption. -/
def pseudonyms_per_id (cams : List CAM) : List (ℤ × Finset ℤ) :=
  cams.foldl addCamToGroups []

/-- pseudonym_consumption.calculate_pseudonym_consumption (lines 47-70):
per static id, the number of distinct pseudonyms divided by the total
simulation time.  Python float division is modelled on ℚ (all inputs are
integral). -/
def calculate_pseudonym_consumption (cams : List CAM) (sim_time : ℚ) : List (ℤ × ℚ) :=
  (pseudonyms_per_id cams).map (fun e => (e.1, (e.2.card : ℚ) / sim_time))

/-- Python min over a nonempty iterable; none models the raised ValueError
on an empty one. -/
def pyMin : List ℚ → Option ℚ
  | [] => none
  | x :: xs => some (xs.foldl min x)

/-- Python max over a nonempty iterable; none models the raised ValueError
on an empty one. -/
def pyMax : List ℚ → Option ℚ
  | [] => none
  | x :: xs => some (xs.foldl max x)

/-- statistics.median: sort, take the middle element (odd length) or the
mean of the two middle elements (even length); none models the
StatisticsError on empty data. -/
def pyMedian (l : List ℚ) : Option ℚ :=
  if l.length = 0 then none
  else
    let s := l.mergeSort (fun a b => a ≤ b)
    if l.length % 2 = 1 then some (s.getD (l.length / 2) 0)
    else some ((s.getD (l.length / 2 - 1) 0 + s.getD (l.length / 2) 0) / 2)

/-- statistics.mean; none models the StatisticsError on empty data. -/
def pyMean (l : List ℚ) : Option ℚ :=
  if l.length = 0 then none else some (l.sum / (l.length : ℚ))

/-- statistics.stdev needs at least two data points (StatisticsError
otherwise, modelled as none).  The returned value is the sample variance
sum of squared deviations over (n - 1); Python stdev is its square root,
which is total and therefore irrelevant to definedness, and the claims
below depend only on definedness. -/
def pyStdevSq (l : List ℚ) : Option ℚ :=
  if l.length < 2 then none
  else
    let m := l.sum / (l.length : ℚ)
    some ((l.map (fun x => (x - m) ^ 2)).sum / ((l.length : ℚ) - 1))

/-- pseudonym_consumption.write_stats (lines 88-117): computes min, max,
median, mean and stdev of all per-vehicle consumption rates, in source
order; the whole computation raises (none) as soon as one statistic
raises. -/
def write_stats (pseudonym_consumption : List (ℤ × ℚ)) : Option (ℚ × ℚ × ℚ × ℚ × ℚ) :=
  let vals := pseudonym_consumption.map (fun e => e.2)
  (pyMin vals).bind (fun mn =>
    (pyMax vals).bind (fun mx =>
      (pyMedian vals).bind (fun md =>
        (pyMean vals).bind (fun mean =>
          (pyStdevSq vals).map (fun sd => (mn, mx, md, mean, sd))))))

/-- POS_ERR_TOLERANCE = 0.003 km (trace.py line 15), as an exact rational. -/
def POS_ERR_TOLERANCE : ℚ := 3 / 1000

/-- VehicleDynamicId.compare_position (trace.py lines 117-158), translated
let-for-let into a real-valued predicate; Python floats become exact
reals.  The lets mirror, in order: delta_t; the microdegree-to-degree
conversions (10e-8 = 1 / 10^7); the cm/s-to-m/s speed conversions; the
ms-to-s time conversion; np.deg2rad of both decidegree headings; the two
half-interval distances; dy_dx_from_distance_and_heading for both states
(its internal dist /= 1000 is the division by 1000); compute_new_long and
compute_new_lat with EARTH_RADIUS = 6371; geo_distance (Haversine) between
the reported and the estimated position; and the heading difference
wrapped by the Python floor-mod x % pi = x - pi * floor(x / pi).  The
result is position_deviation < max_pos_err AND the wrapped difference
strictly inside (-max_heading_diff, max_heading_diff) — in the source the
heading test is only evaluated when the position test passed, which does
not change the conjunction. -/
def compare_position (v : VehicleDynamicId) (cam : CAM)
    (max_pos_err max_heading_diff : ℝ) : Prop :=
  let delta_t : ℝ := (cam.timestamp : ℝ) - (v.timestamps.getLastD 0 : ℝ)
  let new_lat : ℝ := (cam.latitude : ℝ) / 10 ^ 7
  let new_long : ℝ := (cam.longitude : ℝ) / 10 ^ 7
  let old_lat : ℝ := (v.latitude.getLastD 0 : ℝ) / 10 ^ 7
  let old_long : ℝ := (v.longitude.getLastD 0 : ℝ) / 10 ^ 7
  let velocity : ℝ := (v.speed.getLastD 0 : ℝ) / 100
  let velocity_2 : ℝ := (cam.speed : ℝ) / 100
  let t : ℝ := delta_t / 1000
  let heading : ℝ := ((v.heading.getLastD 0 : ℝ) / 10) * (Real.pi / 180)
  let heading_2 : ℝ := ((cam.heading : ℝ) / 10) * (Real.pi / 180)
  let dist : ℝ := velocity * t / 2
  let dist_2 : ℝ := velocity_2 * t / 2
  let dy_1 : ℝ := Real.sin (Real.pi / 2 - heading) * (dist / 1000)
  let dx_1 : ℝ := Real.cos (Real.pi / 2 - heading) * (dist / 1000)
  let dy_2 : ℝ := Real.sin (Real.pi / 2 - heading_2) * (dist_2 / 1000)
  let dx_2 : ℝ := Real.cos (Real.pi / 2 - heading_2) * (dist_2 / 1000)
  let dx : ℝ := dx_1 + dx_2
  let dy : ℝ := dy_1 + dy_2
  let estimated_longitude : ℝ :=
    old_long + (dx / 6371) * (180 / Real.pi) / Real.cos (old_lat * Real.pi / 180)
  let estimated_latitude : ℝ := old_lat + (dy / 6371) * (180 / Real.pi)
  let latitude1 : ℝ := new_lat * (Real.pi / 180)
  let latitude2 : ℝ := estimated_latitude * (Real.pi / 180)
  let longitude1 : ℝ := new_long * (Real.pi / 180)
  let longitude2 : ℝ := estimated_longitude * (Real.pi / 180)
  let d_lon : ℝ := longitude2 - longitude1
  let d_lat : ℝ := latitude2 - latitude1
  let a : ℝ := Real.sin (d_lat / 2) ^ 2 +
    Real.cos latitude1 * Real.cos latitude2 * Real.sin (d_lon / 2) ^ 2
  let c : ℝ := 2 * Real.arcsin (Real.sqrt a)
  let position_deviation : ℝ := c * 6371
  let diff : ℝ := (heading_2 - heading + Real.pi / 2) -
    Real.pi * ⌊(heading_2 - heading + Real.pi / 2) / Real.pi⌋ - Real.pi / 2
  position_deviation < max_pos_err ∧
    (-max_heading_diff < diff ∧ diff < max_heading_diff)

/-- Modelled from the spec sentence behind claim C10, for comparison with
compare_position: the position-only continuity test — the Haversine
distance between the predicted and the reported position is below
POS_ERR_TOLERANCE, with no heading condition.  The predicted position is
computed exactly as in compare_position. -/
def compare_position_pos_only (v : VehicleDynamicId) (cam : CAM) : Prop :=
  let delta_t : ℝ := (cam.timestamp : ℝ) - (v.timestamps.getLastD 0 : ℝ)
  let new_lat : ℝ := (cam.latitude : ℝ) / 10 ^ 7
  let new_long : ℝ := (cam.longitude : ℝ) / 10 ^ 7
  let old_lat : ℝ := (v.latitude.getLastD 0 : ℝ) / 10 ^ 7
  let old_long : ℝ := (v.longitude.getLastD 0 : ℝ) / 10 ^ 7
  let velocity : ℝ := (v.speed.getLastD 0 : ℝ) / 100
  let velocity_2 : ℝ := (cam.speed : ℝ) / 100
  let t : ℝ := delta_t / 1000
  let heading : ℝ := ((v.heading.getLastD 0 : ℝ) / 10) * (Real.pi / 180)
  let heading_2 : ℝ := ((cam.heading : ℝ) / 10) * (Real.pi / 180)
  let dist : ℝ := velocity * t / 2
  let dist_2 : ℝ := velocity_2 * t / 2
  let dy_1 : ℝ := Real.sin (Real.pi / 2 - heading) * (dist / 1000)
  let dx_1 : ℝ := Real.cos (Real.pi / 2 - heading) * (dist / 1000)
  let dy_2 : ℝ := Real.sin (Real.pi / 2 - heading_2) * (dist_2 / 1000)
  let dx_2 : ℝ := Real.cos (Real.pi / 2 - heading_2) * (dist_2 / 1000)
  let dx : ℝ := dx_1 + dx_2
  let dy : ℝ := dy_1 + dy_2
  let estimated_longitude : ℝ :=
    old_long + (dx / 6371) * (180 / Real.pi) / Real.cos (old_lat * Real.pi / 180)
  let estimated_latitude : ℝ := old_lat + (dy / 6371) * (180 / Real.pi)
  let latitude1 : ℝ := new_lat * (Real.pi / 180)
  let latitude2 : ℝ := estimated_latitude * (Real.pi / 180)
  let longitude1 : ℝ := new_long * (Real.pi / 180)
  let longitude2 : ℝ := estimated_longitude * (Real.pi / 180)
  let d_lon : ℝ := longitude2 - longitude1
  let d_lat : ℝ := latitude2 - latitude1
  let a : ℝ := Real.sin (d_lat / 2) ^ 2 +
    Real.cos latitude1 * Real.cos latitude2 * Real.sin (d_lon / 2) ^ 2
  let c : ℝ := 2 * Real.arcsin (Real.sqrt a)
  let position_deviation : ℝ := c * 6371
  position_deviation < (POS_ERR_TOLERANCE : ℝ)

/-- The matching condition applied to one candidate in
match_dynamic_vehicle (trace.py lines 254-264): the identity test, or —
when the identity test fails and the shape test passes — the kinematic
continuity test with the default tolerances POS_ERR_TOLERANCE and
HEADING_TOLERANCE = pi * 3 / 5. -/
def dynMatches (v : VehicleDynamicId) (cam : CAM) : Prop :=
  compare_id v cam.pseudo_id = true ∨
    (compare_id v cam.pseudo_id = false ∧
      compare_parameters v cam.length cam.width = true ∧
      compare_position v cam (POS_ERR_TOLERANCE : ℝ) (Real.pi * 3 / 5))

/-- Effect of one CAM on the candidate-track list: match_dynamic_vehicle
(trace.py lines 254-270) combined with the append of the returned new
vehicle in build_routes (lines 286-288).  The scan walks the list in
order; the first candidate satisfying dynMatches is updated in place and
the scan stops; if none matches, a fresh candidate seeded from the CAM is
appended at the end. -/
inductive DynStep (cam : CAM) : List VehicleDynamicId → List VehicleDynamicId → Prop
  | nil : DynStep cam [] [mkDynamic cam]
  | head_match {v : VehicleDynamicId} {rest : List VehicleDynamicId} :
      dynMatches v cam → DynStep cam (v :: rest) (update_parameters v cam :: rest)
  | head_skip {v : VehicleDynamicId} {rest rest' : List VehicleDynamicId} :
      ¬ dynMatches v cam → DynStep cam rest rest' → DynStep cam (v :: rest) (v :: rest')

/-- The dynamic (candidate-track) half of build_routes: fold DynStep over
the CAM stream in arrival order, skipping CAMs excluded by the allow-list
filter. -/
inductive BuildDynFrom (vehicles : Option (List ℤ)) :
    List VehicleDynamicId → List CAM → List VehicleDynamicId → Prop
  | nil {s : List VehicleDynamicId} : BuildDynFrom vehicles s [] s
  | skip {s s' : List VehicleDynamicId} {cam : CAM} {cams : List CAM} :
      excludedCam vehicles cam = true → BuildDynFrom vehicles s cams s' →
      BuildDynFrom vehicles s (cam :: cams) s'
  | step {s s₁ s' : List VehicleDynamicId} {cam : CAM} {cams : List CAM} :
      excludedCam vehicles cam = false → DynStep cam s s₁ →
      BuildDynFrom vehicles s₁ cams s' → BuildDynFrom vehicles s (cam :: cams) s'

/-- Modelled from the spec sentence behind claim C3 (the walk from the
start): starting from a previous original position, accumulate the
original timestamp delta at each index while the traced and original
positions there agree, stopping at the first divergence. -/
def spec_walk_from (prev : Position) : List Position → List Position → ℤ
  | o :: os, t :: ts =>
      if posEq t o then (o.timestamp - prev.timestamp) + spec_walk_from o os ts
      else 0
  | _, _ => 0

/-- Modelled from the spec sentence behind claim C3: walk the ground-truth
and candidate position sequences position-by-position FROM THE START
(index 0 included), accumulating successive ground-truth timestamp deltas,
and stop at the first index where the two positions diverge. -/
def spec_fragment_duration : List Position → List Position → ℤ
  | o0 :: os, t0 :: ts => if posEq t0 o0 then spec_walk_from o0 os ts else 0
  | _, _ => 0

/-- Association-list lookup for the pseudonyms_per_id dict. -/
def lookupGroups (sid : ℤ) : List (ℤ × Finset ℤ) → Option (Finset ℤ)
  | [] => none
  | e :: r => if e.1 = sid then some e.2 else lookupGroups sid r

/-- Association-list lookup for the per-vehicle consumption rates. -/
def lookupRate (sid : ℤ) : List (ℤ × ℚ) → Option ℚ
  | [] => none
  | e :: r => if e.1 = sid then some e.2 else lookupRate sid r

/-- The set of distinct pseudonym ids a given static id uses in a CAM
stream (the specification of one entry of pseudonyms_per_id). -/
def pseudoFinset (sid : ℤ) (cams : List CAM) : Finset ℤ :=
  ((cams.filter (fun c => c.static_id = sid)).map (fun c => c.pseudo_id)).toFinset

/-- The keys of a pseudonyms_per_id dict. -/
def groupKeys (groups : List (ℤ × Finset ℤ)) : List ℤ :=
  groups.map (fun e => e.1)

/-- Concrete CAM stream for claims C1 and C3: one stationary vehicle
(static id 1) at position (0, 0) with zero speed; it sends pseudonym 7
with shape 2 x 5 at t = 0 ms and t = 100 ms, then changes both pseudonym
(to 8) and reported shape (to 3 x 6) and sends at t = 200..500 ms. -/
def exampleCams : List CAM :=
  [ { timestamp := 0, static_id := 1, pseudo_id := 7, longitude := 0, latitude := 0,
      width := 2, length := 5, speed := 0, heading := 0 },
    { timestamp := 100, static_id := 1, pseudo_id := 7, longitude := 0, latitude := 0,
      width := 2, length := 5, speed := 0, heading := 0 },
    { timestamp := 200, static_id := 1, pseudo_id := 8, longitude := 0, latitude := 0,
      width := 3, length := 6, speed := 0, heading := 0 },
    { timestamp := 300, static_id := 1, pseudo_id := 8, longitude := 0, latitude := 0,
      width := 3, length := 6, speed := 0, heading := 0 },
    { timestamp := 400, static_id := 1, pseudo_id := 8, longitude := 0, latitude := 0,
      width := 3, length := 6, speed := 0, heading := 0 },
    { timestamp := 500, static_id := 1, pseudo_id := 8, longitude := 0, latitude := 0,
      width := 3, length := 6, speed := 0, heading := 0 } ]

/-- The candidate-track list the tracker produces on exampleCams: the
first fragment covers the two pseudonym-7 CAMs (duration 100 ms), the
second the four pseudonym-8 CAMs (duration 300 ms). -/
def exampleDyns : List VehicleDynamicId :=
  [ { pseudo_id := [7, 7], static_id := 1, width := 2, length := 5,
      longitude := [0, 0], latitude := [0, 0], speed := [0, 0], heading := [0, 0],
      timestamps := [0, 100], duration := 100 },
    { pseudo_id := [8, 8, 8, 8], static_id := 1, width := 3, length := 6,
      longitude := [0, 0, 0, 0], latitude := [0, 0, 0, 0], speed := [0, 0, 0, 0],
      heading := [0, 0, 0, 0], timestamps := [200, 300, 400, 500], duration := 300 } ]

/-- Concrete candidate tracks for the claim C2 counterexample: track A is
a stationary vehicle currently using pseudonym 7 with shape 2 x 5; track B
currently uses pseudonym 8. -/
def exampleTrackA : VehicleDynamicId :=
  mkDynamic { timestamp := 0, static_id := 1, pseudo_id := 7, longitude := 0, latitude := 0,
              width := 2, length := 5, speed := 0, heading := 0 }

/-- The second candidate track of the claim C2 counterexample. -/
def exampleTrackB : VehicleDynamicId :=
  mkDynamic { timestamp := 0, static_id := 2, pseudo_id := 8, longitude := 9000000, latitude := 9000000,
              width := 4, length := 7, speed := 0, heading := 0 }

/-- The incoming CAM of the claim C2 counterexample: it carries pseudonym
8 (the current identity of track B) but reports the position and shape of
the stationary track A. -/
def exampleCamC2 : CAM :=
  { timestamp := 100, static_id := 1, pseudo_id := 8, longitude := 0, latitude := 0,
    width := 2, length := 5, speed := 0, heading := 0 }

lemma mem_remove_duplicates_loop (a : String) :
    ∀ (ls seen : List String), a ∈ remove_duplicates_loop seen ls ↔ (a ∈ ls ∧ a ∉ seen) := by
  intro ls
  induction ls with
  | nil => intro seen; simp [remove_duplicates_loop]
  | cons l ls ih =>
    intro seen
    by_cases hl : l ∈ seen
    · simp only [remove_duplicates_loop, if_pos hl, ih, List.mem_cons]
      constructor
      · rintro ⟨h1, h2⟩; exact ⟨Or.inr h1, h2⟩
      · rintro ⟨h1 | h1, h2⟩
        · exact absurd hl (h1 ▸ h2)
        · exact ⟨h1, h2⟩
    · simp only [remove_duplicates_loop, if_neg hl, List.mem_cons, ih]
      constructor
      · rintro (rfl | ⟨h1, h2⟩)
        · exact ⟨Or.inl rfl, hl⟩
        · exact ⟨Or.inr h1, fun hs => h2 (Or.inr hs)⟩
      · rintro ⟨rfl | h1, h2⟩
        · exact Or.inl rfl
        · rcases eq_or_ne a l with rfl | hne
          · exact Or.inl rfl
          · exact Or.inr ⟨h1, fun hs => by
              rcases hs with h | h
              · exact hne h
              · exact h2 h⟩

lemma nodup_remove_duplicates_loop :
    ∀ (ls seen : List String), (remove_duplicates_loop seen ls).Nodup := by
  intro ls
  induction ls with
  | nil => intro seen; simp [remove_duplicates_loop]
  | cons l ls ih =>
    intro seen
    by_cases hl : l ∈ seen
    · simpa only [remove_duplicates_loop, if_pos hl] using ih seen
    · simp only [remove_duplicates_loop, if_neg hl, List.nodup_cons]
      refine ⟨fun hmem => ?_, ih (l :: seen)⟩
      exact ((mem_remove_duplicates_loop l ls (l :: seen)).mp hmem).2 (List.mem_cons_self l seen)

lemma sublist_remove_duplicates_loop :
    ∀ (ls seen : List String), List.Sublist (remove_duplicates_loop seen ls) ls := by
  intro ls
  induction ls with
  | nil => intro seen; simp [remove_duplicates_loop]
  | cons l ls ih =>
    intro seen
    by_cases hl : l ∈ seen
    · simpa only [remove_duplicates_loop, if_pos hl] using (ih seen).cons l
    · simpa only [remove_duplicates_loop, if_neg hl] using (ih (l :: seen)).cons₂ l

lemma remove_duplicates_loop_of_nodup :
    ∀ (ls seen : List String), ls.Nodup → (∀ a ∈ ls, a ∉ seen) →
      remove_duplicates_loop seen ls = ls := by
  intro ls
  induction ls with
  | nil => intro seen _ _; rfl
  | cons l ls ih =>
    intro seen hnd hdisj
    have hl : l ∉ seen := hdisj l (List.mem_cons_self l ls)
    simp only [remove_duplicates_loop, if_neg hl]
    rw [ih (l :: seen) (List.nodup_cons.mp hnd).2]
    intro a ha
    rw [List.mem_cons]
    rintro (rfl | hs)
    · exact (List.nodup_cons.mp hnd).1 ha
    · exact hdisj a (List.mem_cons_of_mem _ ha) hs

lemma remove_duplicates_loop_eq_keep_first :
    ∀ (ls seen walked : List String), (∀ a, a ∈ seen ↔ a ∈ walked) →
      remove_duplicates_loop seen ls = keep_first_occurrences_loop walked ls := by
  intro ls
  induction ls with
  | nil => intro seen walked _; rfl
  | cons l ls ih =>
    intro seen walked hiff
    have hnext : ∀ a, a ∈ (l :: seen) ↔ a ∈ (walked ++ [l]) := by
      intro a
      simp only [List.mem_cons, List.mem_append, List.mem_singleton, hiff]
      tauto
    by_cases hl : l ∈ seen
    · rw [remove_duplicates_loop, if_pos hl, keep_first_occurrences_loop,
        if_pos ((hiff l).mp hl)]
      refine ih seen (walked ++ [l]) ?_
      intro a
      simp only [List.mem_append, List.mem_singleton, hiff]
      constructor
      · exact fun h => Or.inl h
      · rintro (h | rfl)
        · exact h
        · exact (hiff a).mp hl
    · rw [remove_duplicates_loop, if_neg hl, keep_first_occurrences_loop,
        if_neg (fun h => hl ((hiff l).mpr h))]
      exact congrArg (l :: ·) (ih (l :: seen) (walked ++ [l]) hnext)

/-- Claim C5: deduplication is idempotent, its output has no two identical
lines, and the output is exactly the subsequence of first occurrences of
the distinct input lines in input order (line equality is exact text
equality).  All four parts are stated for every input line list. -/
theorem C5_dedup_idempotent_first_occurrence (lines : List String) :
    remove_duplicates_in_csv (remove_duplicates_in_csv lines) = remove_duplicates_in_csv lines ∧
    (remove_duplicates_in_csv lines).Nodup ∧
    List.Sublist (remove_duplicates_in_csv lines) lines ∧
    (∀ a, a ∈ remove_duplicates_in_csv lines ↔ a ∈ lines) ∧
    remove_duplicates_in_csv lines = keep_first_occurrences lines := by
  refine ⟨?_, nodup_remove_duplicates_loop lines [],
    sublist_remove_duplicates_loop lines [], ?_, ?_⟩
  · exact remove_duplicates_loop_of_nodup _ [] (nodup_remove_duplicates_loop lines [])
      (fun a _ => List.not_mem_nil a)
  · intro a
    rw [remove_duplicates_in_csv, mem_remove_duplicates_loop]
    simp
  · exact remove_duplicates_loop_eq_keep_first lines [] [] (fun a => Iff.rfl)

lemma sumDeltas_append (l : List ℤ) (t : ℤ) (h : l ≠ []) :
    sumDeltas (l ++ [t]) = sumDeltas l + (t - l.getLastD 0) := by
  induction l with
  | nil => exact absurd rfl h
  | cons a l ih =>
    cases l with
    | nil => simp [sumDeltas]
    | cons b r =>
      have hne : b :: r ≠ [] := by simp
      specialize ih hne
      simp only [List.cons_append, List.getLastD_cons] at ih ⊢
      simp only [sumDeltas]
      omega

lemma sumDeltas_eq_last_sub_head (l : List ℤ) (h : l ≠ []) :
    sumDeltas l = l.getLastD 0 - l.headD 0 := by
  induction l with
  | nil => exact absurd rfl h
  | cons a l ih =>
    cases l with
    | nil => simp [sumDeltas]
    | cons b r =>
      have hne : b :: r ≠ [] := by simp
      specialize ih hne
      simp only [sumDeltas, List.getLastD_cons, List.headD_cons] at ih ⊢
      omega

lemma apply_static_updates_invariant (updates : List (ℤ × ℤ × ℤ × ℤ)) :
    ∀ (v : VehicleConstantId), v.timestamps ≠ [] → v.duration = sumDeltas v.timestamps →
      (apply_static_updates v updates).timestamps ≠ [] ∧
      (apply_static_updates v updates).duration =
        sumDeltas (apply_static_updates v updates).timestamps := by
  induction updates with
  | nil => intro v h1 h2; exact ⟨h1, h2⟩
  | cons u us ih =>
    intro v h1 h2
    have hstep : (try_update_parameters v u.1 u.2.1 u.2.2.1 u.2.2.2).1.timestamps ≠ [] ∧
        (try_update_parameters v u.1 u.2.1 u.2.2.1 u.2.2.2).1.duration =
          sumDeltas (try_update_parameters v u.1 u.2.1 u.2.2.1 u.2.2.2).1.timestamps := by
      unfold try_update_parameters
      by_cases hid : u.1 ≠ v.static_id
      · simp only [if_pos hid]
        exact ⟨h1, h2⟩
      · simp only [if_neg hid]
        refine ⟨by simp, ?_⟩
        show v.duration + (u.2.2.2 - v.timestamps.getLastD 0) =
          sumDeltas (v.timestamps ++ [u.2.2.2])
        rw [sumDeltas_append v.timestamps u.2.2.2 h1, h2]
    have := ih _ hstep.1 hstep.2
    exact this

lemma apply_dynamic_updates_invariant (cams : List CAM) :
    ∀ (v : VehicleDynamicId), v.timestamps ≠ [] → v.duration = sumDeltas v.timestamps →
      (apply_dynamic_updates v cams).timestamps ≠ [] ∧
      (apply_dynamic_updates v cams).duration =
        sumDeltas (apply_dynamic_updates v cams).timestamps := by
  induction cams with
  | nil => intro v h1 h2; exact ⟨h1, h2⟩
  | cons cam cams ih =>
    intro v h1 h2
    have hstep : (update_parameters v cam).timestamps ≠ [] ∧
        (update_parameters v cam).duration = sumDeltas (update_parameters v cam).timestamps := by
      refine ⟨by simp [update_parameters], ?_⟩
      simp only [update_parameters]
      rw [sumDeltas_append v.timestamps cam.timestamp h1, h2]
    have := ih _ hstep.1 hstep.2
    exact this

/-- Claim C8 (amended): after any sequence of appends, the cumulative
duration of a ground-truth track — and likewise of a candidate track —
equals the sum of consecutive timestamp deltas; since that sum telescopes,
it also always equals the last timestamp minus the first (contrary to the
"not last minus first" reading of the claim). -/
theorem C8_duration_sum_of_deltas :
    (∀ (sid lon lat ts : ℤ) (updates : List (ℤ × ℤ × ℤ × ℤ)),
      (apply_static_updates (mkConstant sid lon lat ts) updates).duration =
        sumDeltas (apply_static_updates (mkConstant sid lon lat ts) updates).timestamps ∧
      (apply_static_updates (mkConstant sid lon lat ts) updates).duration =
        (apply_static_updates (mkConstant sid lon lat ts) updates).timestamps.getLastD 0 -
          (apply_static_updates (mkConstant sid lon lat ts) updates).timestamps.headD 0) ∧
    (∀ (cam : CAM) (cams : List CAM),
      (apply_dynamic_updates (mkDynamic cam) cams).duration =
        sumDeltas (apply_dynamic_updates (mkDynamic cam) cams).timestamps ∧
      (apply_dynamic_updates (mkDynamic cam) cams).duration =
        (apply_dynamic_updates (mkDynamic cam) cams).timestamps.getLastD 0 -
          (apply_dynamic_updates (mkDynamic cam) cams).timestamps.headD 0) := by
  constructor
  · intro sid lon lat ts updates
    have h := apply_static_updates_invariant updates (mkConstant sid lon lat ts)
      (by simp [mkConstant]) (by simp [mkConstant, sumDeltas])
    exact ⟨h.2, h.2.trans (sumDeltas_eq_last_sub_head _ h.1)⟩
  · intro cam cams
    have h := apply_dynamic_updates_invariant cams (mkDynamic cam)
      (by simp [mkDynamic]) (by simp [mkDynamic, sumDeltas])
    exact ⟨h.2, h.2.trans (sumDeltas_eq_last_sub_head _ h.1)⟩

/-- Claim C8 counterexample: a ground-truth track appended with the
out-of-order timestamp sequence 0, 100, 50.  Its duration, the sum of
deltas, is 100 + (50 - 100) = 50, which EQUALS the last timestamp minus
the first (contradicting the claim that the sum of deltas is "not last
timestamp minus first"); the value that does differ is the wall-clock
span max - min = 100 - 0. -/
theorem C8_counterexample :
    (apply_static_updates (mkConstant 1 0 0 0) [(1, 0, 0, 100), (1, 0, 0, 50)]).timestamps =
      [0, 100, 50] ∧
    ¬ List.Pairwise (fun a b => a ≤ b) ([0, 100, 50] : List ℤ) ∧
    (apply_static_updates (mkConstant 1 0 0 0) [(1, 0, 0, 100), (1, 0, 0, 50)]).duration = 50 ∧
    (apply_static_updates (mkConstant 1 0 0 0) [(1, 0, 0, 100), (1, 0, 0, 50)]).duration =
      ([0, 100, 50] : List ℤ).getLastD 0 - ([0, 100, 50] : List ℤ).headD 0 ∧
    (apply_static_updates (mkConstant 1 0 0 0) [(1, 0, 0, 100), (1, 0, 0, 50)]).duration ≠
      100 - 0 := by
  refine ⟨by decide, by decide, by decide, by decide, by decide⟩

lemma get_trace_duration_aux_eq_spec_walk :
    ∀ (os : List Position) (o0 t0 : Position) (ts : List Position),
      get_trace_duration_aux (o0 :: os) (t0 :: ts) = spec_walk_from o0 os ts := by
  intro os
  induction os with
  | nil =>
    intro o0 t0 ts
    cases ts <;> rfl
  | cons o1 os' ih =>
    intro o0 t0 ts
    cases ts with
    | nil => rfl
    | cons t1 ts' =>
      simp only [get_trace_duration_aux, spec_walk_from, ih o1 t1 ts']

/-- Claim C3 (amended): the reconstructed-fragment duration equals the sum
of successive ground-truth timestamp deltas accumulated while walking both
position sequences in step STARTING AT INDEX 1, stopping at the first
index at or after 1 where the two positions diverge; the positions at
index 0 are never compared (the second conjunct: the head of the traced
sequence is irrelevant).  Position equality is posEq, which compares only
longitude and latitude and ignores the timestamp. -/
theorem C3_trace_duration_walks_from_index_one :
    (∀ (o0 : Position) (os : List Position) (t0 : Position) (ts : List Position),
      get_trace_duration (o0 :: os) (t0 :: ts) = spec_walk_from o0 os ts) ∧
    (∀ (orig : List Position) (t0 t0' : Position) (ts : List Position),
      get_trace_duration orig (t0 :: ts) = get_trace_duration orig (t0' :: ts)) := by
  constructor
  · intro o0 os t0 ts
    exact get_trace_duration_aux_eq_spec_walk os o0 t0 ts
  · intro orig t0 t0' ts
    cases orig with
    | nil => rfl
    | cons o0 os =>
      rw [get_trace_duration, get_trace_duration,
        get_trace_duration_aux_eq_spec_walk os o0 t0 ts,
        get_trace_duration_aux_eq_spec_walk os o0 t0' ts]

/-- Claim C3 counterexample: ground-truth positions (0,0) at t=0 then
(1,1) at t=100; traced positions (5,5) at t=0 then (1,1) at t=100.  The
two sequences diverge already at index 0 (posEq is false there), so the
walk described by the claim yields duration 0, but get_trace_duration
never compares index 0 and returns 100. -/
theorem C3_counterexample :
    get_trace_duration
        [{ longitude := 0, latitude := 0, timestamp := 0 },
         { longitude := 1, latitude := 1, timestamp := 100 }]
        [{ longitude := 5, latitude := 5, timestamp := 0 },
         { longitude := 1, latitude := 1, timestamp := 100 }] = 100 ∧
    spec_fragment_duration
        [{ longitude := 0, latitude := 0, timestamp := 0 },
         { longitude := 1, latitude := 1, timestamp := 100 }]
        [{ longitude := 5, latitude := 5, timestamp := 0 },
         { longitude := 1, latitude := 1, timestamp := 100 }] = 0 ∧
    posEq { longitude := 5, latitude := 5, timestamp := 0 }
        { longitude := 0, latitude := 0, timestamp := 0 } = false := by
  refine ⟨by decide, by decide, by decide⟩

lemma pymod_eq (x : ℝ) : x - Real.pi * ⌊x / Real.pi⌋ = Real.pi * Int.fract (x / Real.pi) := by
  rw [Int.fract, mul_sub, mul_comm Real.pi (x / Real.pi),
    div_mul_cancel₀ x Real.pi_pos.ne']

lemma pymod_bounds (x : ℝ) :
    0 ≤ x - Real.pi * ⌊x / Real.pi⌋ ∧ x - Real.pi * ⌊x / Real.pi⌋ < Real.pi := by
  rw [pymod_eq]
  constructor
  · exact mul_nonneg Real.pi_pos.le (Int.fract_nonneg _)
  · calc Real.pi * Int.fract (x / Real.pi) < Real.pi * 1 :=
        mul_lt_mul_of_pos_left (Int.fract_lt_one _) Real.pi_pos
    _ = Real.pi := mul_one _

lemma heading_diff_in_tolerance (x : ℝ) :
    -(Real.pi * 3 / 5) < (x + Real.pi / 2) - Real.pi * ⌊(x + Real.pi / 2) / Real.pi⌋ - Real.pi / 2 ∧
    (x + Real.pi / 2) - Real.pi * ⌊(x + Real.pi / 2) / Real.pi⌋ - Real.pi / 2 < Real.pi * 3 / 5 := by
  obtain ⟨h0, h1⟩ := pymod_bounds (x + Real.pi / 2)
  have hpi := Real.pi_pos
  constructor <;> linarith

lemma compare_position_zero_motion (v : VehicleDynamicId) (cam : CAM)
    (hlon : v.longitude.getLastD 0 = cam.longitude)
    (hlat : v.latitude.getLastD 0 = cam.latitude)
    (hspd : v.speed.getLastD 0 = 0) (hspd2 : cam.speed = 0) :
    compare_position v cam (POS_ERR_TOLERANCE : ℝ) (Real.pi * 3 / 5) := by
  unfold compare_position
  simp only [hlon, hlat, hspd, hspd2, Int.cast_zero, zero_div, zero_mul, mul_zero,
    add_zero, zero_add, sub_self, Real.sin_zero, Real.sqrt_zero, Real.arcsin_zero,
    ne_eq, OfNat.ofNat_ne_zero, not_false_eq_true]
  constructor
  · norm_num [POS_ERR_TOLERANCE]
  · exact heading_diff_in_tolerance _

/-- Claim C4: whenever a candidate track and a new CAM report the same
(longitude, latitude) position and both have zero speed, the continuity
test compare_position (with the default tolerances) accepts, for every
non-negative time gap between the candidate timestamp and the CAM
timestamp: the predicted displacement is zero, so the predicted position
equals the reported one and the Haversine deviation is 0; and the wrapped
heading difference always lies inside the heading tolerance. -/
theorem C4_zero_motion_always_matches (v : VehicleDynamicId) (cam : CAM)
    (hlon : v.longitude.getLastD 0 = cam.longitude)
    (hlat : v.latitude.getLastD 0 = cam.latitude)
    (hspd : v.speed.getLastD 0 = 0) (hspd2 : cam.speed = 0)
    (hdt : v.timestamps.getLastD 0 ≤ cam.timestamp) :
    compare_position v cam (POS_ERR_TOLERANCE : ℝ) (Real.pi * 3 / 5) :=
  compare_position_zero_motion v cam hlon hlat hspd hspd2

/-- Witness for claim C4: the stationary candidate track exampleTrackA
(last position (0,0), speed 0, timestamp 0) and the CAM exampleCamC2
(position (0,0), speed 0, timestamp 100). -/
theorem C4_zero_motion_always_matches_witness :
    exampleTrackA.longitude.getLastD 0 = exampleCamC2.longitude ∧
    exampleTrackA.latitude.getLastD 0 = exampleCamC2.latitude ∧
    exampleTrackA.speed.getLastD 0 = 0 ∧
    exampleCamC2.speed = 0 ∧
    exampleTrackA.timestamps.getLastD 0 ≤ exampleCamC2.timestamp ∧
    compare_position exampleTrackA exampleCamC2 (POS_ERR_TOLERANCE : ℝ) (Real.pi * 3 / 5) :=
  ⟨rfl, rfl, rfl, rfl, by decide,
    C4_zero_motion_always_matches exampleTrackA exampleCamC2 rfl rfl rfl rfl (by decide)⟩

/-- Claim C10: for every candidate track and CAM, the continuity test with
the default tolerances is equivalent to the position-only test (Haversine
distance between predicted and reported position below POS_ERR_TOLERANCE):
the heading condition can never reject, because the Python floor-mod wraps
the heading difference into the interval from -pi/2 (inclusive) to pi/2
(exclusive), which is strictly inside the tolerance interval from
-3pi/5 to 3pi/5. -/
theorem C10_heading_condition_never_rejects (v : VehicleDynamicId) (cam : CAM) :
    compare_position v cam (POS_ERR_TOLERANCE : ℝ) (Real.pi * 3 / 5) ↔
      compare_position_pos_only v cam := by
  unfold compare_position compare_position_pos_only
  constructor
  · intro h
    exact h.1
  · intro h
    exact ⟨h, heading_diff_in_tolerance _⟩

lemma dynStep_deterministic {cam : CAM} {l r₁ r₂ : List VehicleDynamicId}
    (h1 : DynStep cam l r₁) (h2 : DynStep cam l r₂) : r₁ = r₂ := by
  induction h1 generalizing r₂ with
  | nil =>
    cases h2
    rfl
  | head_match h =>
    cases h2 with
    | head_match h' => rfl
    | head_skip h' _ => exact absurd h h'
  | head_skip h hrest ih =>
    cases h2 with
    | head_match h' => exact absurd h' h
    | head_skip h' hrest' => rw [ih hrest']

lemma buildDynFrom_deterministic {vehicles : Option (List ℤ)} :
    ∀ {cams : List CAM} {s r₁ r₂ : List VehicleDynamicId},
      BuildDynFrom vehicles s cams r₁ → BuildDynFrom vehicles s cams r₂ → r₁ = r₂ := by
  intro cams
  induction cams with
  | nil =>
    intro s r₁ r₂ h1 h2
    cases h1
    cases h2
    rfl
  | cons cam cams ih =>
    intro s r₁ r₂ h1 h2
    cases h1 with
    | skip hex hrest =>
      cases h2 with
      | skip hex' hrest' => exact ih hrest hrest'
      | step hex' _ _ => rw [hex] at hex'; exact absurd hex' (by simp)
    | step hex hstep hrest =>
      cases h2 with
      | skip hex' hrest' => rw [hex] at hex'; exact absurd hex' (by simp)
      | step hex' hstep' hrest' =>
        rw [dynStep_deterministic hstep hstep'] at hrest
        exact ih hrest hrest'

/-- Claim C2 (amended): the candidate scan of match_dynamic_vehicle walks
the CandidateTracks in list order and, for each candidate, evaluates the
identity test before the shape+kinematic test; the FIRST candidate passing
either test is extended.  Consequently a candidate whose last pseudonym
equals the pseudonym of the CAM is the one extended precisely when no
candidate before it passes its own identity or shape+kinematic test;
within a single candidate the identity test strictly dominates (a
successful identity test extends that candidate regardless of the
kinematic test), but an earlier candidate passing the shape+kinematic test
preempts a later identity match. -/
theorem C2_first_match_scan (cam : CAM) (l₁ l₂ : List VehicleDynamicId)
    (v : VehicleDynamicId) (r : List VehicleDynamicId)
    (hnone : ∀ u ∈ l₁, ¬ dynMatches u cam)
    (hid : compare_id v cam.pseudo_id = true)
    (hstep : DynStep cam (l₁ ++ v :: l₂) r) :
    r = l₁ ++ update_parameters v cam :: l₂ := by
  induction l₁ generalizing r with
  | nil =>
    cases hstep with
    | head_match h => rfl
    | head_skip h _ => exact absurd (Or.inl hid) h
  | cons u l₁ ih =>
    cases hstep with
    | head_match h => exact absurd h (hnone u (List.mem_cons_self u l₁))
    | head_skip h hrest =>
      rw [ih _ (fun w hw => hnone w (List.mem_cons_of_mem u hw)) hrest]
      rfl

/-- Witness for claim C2: with no earlier candidates, the identity match
on exampleTrackB (its last pseudonym, 8, equals the pseudonym of
exampleCamC2) extends exactly that track. -/
theorem C2_first_match_scan_witness :
    (∀ u ∈ ([] : List VehicleDynamicId), ¬ dynMatches u exampleCamC2) ∧
    compare_id exampleTrackB exampleCamC2.pseudo_id = true ∧
    DynStep exampleCamC2 ([] ++ exampleTrackB :: [])
      [update_parameters exampleTrackB exampleCamC2] ∧
    [update_parameters exampleTrackB exampleCamC2] =
      [] ++ update_parameters exampleTrackB exampleCamC2 :: [] := by
  have hnone : ∀ u ∈ ([] : List VehicleDynamicId), ¬ dynMatches u exampleCamC2 :=
    fun u hu => absurd hu (List.not_mem_nil u)
  have hid : compare_id exampleTrackB exampleCamC2.pseudo_id = true := by decide
  have hstep : DynStep exampleCamC2 ([] ++ exampleTrackB :: [])
      [update_parameters exampleTrackB exampleCamC2] := DynStep.head_match (Or.inl hid)
  exact ⟨hnone, hid, hstep,
    C2_first_match_scan exampleCamC2 [] [] exampleTrackB _ hnone hid hstep⟩

/-- Claim C2 counterexample: candidate list [exampleTrackA, exampleTrackB];
the CAM exampleCamC2 carries pseudonym 8, which is the last pseudonym of
exampleTrackB — a pseudonym-identity match exists.  Yet the scan extends
exampleTrackA: its identity test fails but its shape test and kinematic
continuity test (same position, zero speed) pass, and it comes first.  The
resulting list is NOT the one in which the identity-matching track B was
extended, refuting the claim that an existing pseudonym-identity match is
never overridden by the shape+kinematic test on another track. -/
theorem C2_counterexample :
    compare_id exampleTrackB exampleCamC2.pseudo_id = true ∧
    compare_id exampleTrackA exampleCamC2.pseudo_id = false ∧
    DynStep exampleCamC2 [exampleTrackA, exampleTrackB]
      [update_parameters exampleTrackA exampleCamC2, exampleTrackB] ∧
    [update_parameters exampleTrackA exampleCamC2, exampleTrackB] ≠
      [exampleTrackA, update_parameters exampleTrackB exampleCamC2] := by
  refine ⟨by decide, by decide, ?_, by decide⟩
  exact DynStep.head_match (Or.inr ⟨by decide, by decide,
    compare_position_zero_motion _ _ rfl rfl rfl rfl⟩)

/-- Claim C1 is refuted by the code: on exampleCams the tracker produces
exampleDyns (first conjunct; the relation is deterministic by
dynStep_deterministic and buildDynFrom_deterministic), the trace
correlator yields exactly one evaluable vehicle trace with fragment
durations 100 ms and 300 ms and ground-truth duration 500 ms (second and
third conjunct), and the static-attacker write_success_rate returns the
FIRST fragment ratio 100/500 = 1/5, not the maximum fragment ratio
300/500 = 3/5 demanded by the claim — even though the code names the
value max_tracking_duration and prints it as "Max tracking duration". -/
theorem C1_write_success_rate_uses_first_fragment :
    BuildDynFrom none [] exampleCams exampleDyns ∧
    (get_vehicle_traces (build_static_routes none exampleCams) exampleDyns none).map
        (fun t => t.reconstructed_traces.map (fun r => r.duration)) = [[100, 300]] ∧
    (get_vehicle_traces (build_static_routes none exampleCams) exampleDyns none).map
        (fun t => t.original_trace.duration) = [500] ∧
    (get_vehicle_traces (build_static_routes none exampleCams) exampleDyns none).map
        write_success_rate = [1 / 5] ∧
    (get_vehicle_traces (build_static_routes none exampleCams) exampleDyns none).map
        spec_tracking_success = [3 / 5] ∧
    ((1 : ℚ) / 5) ≠ 3 / 5 := by
  have htraces : get_vehicle_traces (build_static_routes none exampleCams) exampleDyns none =
      [{ static_id := 1,
         original_trace :=
           { static_id := 1,
             positions := [{ longitude := 0, latitude := 0, timestamp := 0 },
               { longitude := 0, latitude := 0, timestamp := 100 },
               { longitude := 0, latitude := 0, timestamp := 200 },
               { longitude := 0, latitude := 0, timestamp := 300 },
               { longitude := 0, latitude := 0, timestamp := 400 },
               { longitude := 0, latitude := 0, timestamp := 500 }],
             duration := 500 },
         reconstructed_traces :=
           [{ static_id := 1, pseudo_ids := [7, 7],
              positions := [{ longitude := 0, latitude := 0, timestamp := 0 },
                { longitude := 0, latitude := 0, timestamp := 100 }],
              duration := 100 },
            { static_id := 1, pseudo_ids := [8, 8, 8, 8],
              positions := [{ longitude := 0, latitude := 0, timestamp := 200 },
                { longitude := 0, latitude := 0, timestamp := 300 },
                { longitude := 0, latitude := 0, timestamp := 400 },
                { longitude := 0, latitude := 0, timestamp := 500 }],
              duration := 300 }] }] := by decide
  refine ⟨?_, ?_, ?_, ?_, ?_, by norm_num⟩
  · refine BuildDynFrom.step rfl DynStep.nil ?_
    refine BuildDynFrom.step rfl (DynStep.head_match (Or.inl (by decide))) ?_
    refine BuildDynFrom.step rfl (DynStep.head_skip ?_ DynStep.nil) ?_
    · rintro (h | ⟨h1, h2, h3⟩)
      · exact absurd h (by decide)
      · exact absurd h2 (by decide)
    refine BuildDynFrom.step rfl
      (DynStep.head_skip ?_ (DynStep.head_match (Or.inl (by decide)))) ?_
    · rintro (h | ⟨h1, h2, h3⟩)
      · exact absurd h (by decide)
      · exact absurd h2 (by decide)
    refine BuildDynFrom.step rfl
      (DynStep.head_skip ?_ (DynStep.head_match (Or.inl (by decide)))) ?_
    · rintro (h | ⟨h1, h2, h3⟩)
      · exact absurd h (by decide)
      · exact absurd h2 (by decide)
    refine BuildDynFrom.step rfl
      (DynStep.head_skip ?_ (DynStep.head_match (Or.inl (by decide)))) ?_
    · rintro (h | ⟨h1, h2, h3⟩)
      · exact absurd h (by decide)
      · exact absurd h2 (by decide)
    exact BuildDynFrom.nil
  · rw [htraces]
    decide
  · rw [htraces]
    decide
  · rw [htraces]
    simp only [List.map_cons, List.map_nil, write_success_rate]
    norm_num
  · rw [htraces]
    simp only [List.map_cons, List.map_nil, spec_tracking_success]
    norm_num

/-- Claim C6 (Scenario C): with purge threshold 1000 ms and exactly one
CAM of pseudonym 1 at t = 0 and one CAM of pseudonym 2 at t = 2000, the
final anonymity set contains only pseudonym 2 (pseudonym 1 is purged at
t = 2000 because its age 2000 ms exceeds 1000 ms), the computed EASS is 0,
and the degree of anonymity returns the sentinel -1 because the set has
exactly one member. -/
theorem C6_scenario_c_purge_eass_sentinel :
    calculate_anonymity_set
        [{ timestamp := 0, static_id := 1, pseudo_id := 1, longitude := 0, latitude := 0,
           width := 0, length := 0, speed := 0, heading := 0 },
         { timestamp := 2000, static_id := 2, pseudo_id := 2, longitude := 0, latitude := 0,
           width := 0, length := 0, speed := 0, heading := 0 }] 1000 0 = [(2, 1, 2000)] ∧
    calculate_entropy_and_eass [(2, 1, 2000)] 0 ∧
    (∀ e : ℝ, calculate_degree_of_anonymity [(2, 1, 2000)] e (-1)) := by
  refine ⟨by decide, ?_, ?_⟩
  · unfold calculate_entropy_and_eass totalCams
    norm_num
  · intro e
    unfold calculate_degree_of_anonymity
    norm_num

lemma lookupGroups_addCam (g : List (ℤ × Finset ℤ)) (cam : CAM) (sid : ℤ) :
    lookupGroups sid (addCamToGroups g cam) =
      if cam.static_id = sid then
        (match lookupGroups sid g with
          | some s => some (insert cam.pseudo_id s)
          | none => some {cam.pseudo_id})
      else lookupGroups sid g := by
  induction g with
  | nil =>
    by_cases hc : cam.static_id = sid <;>
      simp [addCamToGroups, lookupGroups, hc]
  | cons e r ih =>
    by_cases he : e.1 = cam.static_id
    · by_cases hs : e.1 = sid
      · have hcs : cam.static_id = sid := he ▸ hs
        simp [addCamToGroups, lookupGroups, he, hs, hcs]
      · have hcs : ¬ cam.static_id = sid := fun h => hs (he.trans h)
        simp [addCamToGroups, lookupGroups, he, hs, hcs]
    · by_cases hs : e.1 = sid
      · have hcs : ¬ cam.static_id = sid := fun h => he (h.trans hs.symm ▸ rfl)
        have hcs2 : ¬ sid = cam.static_id := fun h => hcs h.symm
        simp [addCamToGroups, lookupGroups, he, hs, hcs, hcs2]
      · simp [addCamToGroups, lookupGroups, he, hs, ih]

lemma pseudoFinset_cons (cam : CAM) (cams : List CAM) (sid : ℤ) :
    pseudoFinset sid (cam :: cams) =
      if cam.static_id = sid then insert cam.pseudo_id (pseudoFinset sid cams)
      else pseudoFinset sid cams := by
  by_cases hc : cam.static_id = sid <;>
    simp [pseudoFinset, List.filter_cons, hc]

lemma lookupGroups_foldl :
    ∀ (cams : List CAM) (acc : List (ℤ × Finset ℤ)) (sid : ℤ),
      lookupGroups sid (cams.foldl addCamToGroups acc) =
        match lookupGroups sid acc with
        | some s => some (s ∪ pseudoFinset sid cams)
        | none =>
            if sid ∈ cams.map (fun c => c.static_id) then some (pseudoFinset sid cams)
            else none := by
  intro cams
  induction cams with
  | nil =>
    intro acc sid
    cases h : lookupGroups sid acc <;> simp [h, pseudoFinset]
  | cons cam rest ih =>
    intro acc sid
    rw [List.foldl_cons, ih (addCamToGroups acc cam) sid, lookupGroups_addCam,
      pseudoFinset_cons]
    by_cases hc : cam.static_id = sid
    · cases h : lookupGroups sid acc with
      | some s =>
        simp only [hc, if_pos, h]
        rw [Finset.union_insert, Finset.insert_union]
      | none =>
        simp only [hc, if_pos, h, List.map_cons, List.mem_cons]
        simp only [true_or, if_pos]
        rw [← Finset.insert_eq]
    · cases h : lookupGroups sid acc with
      | some s => simp [hc, h]
      | none =>
        simp only [hc, if_neg, h, List.map_cons, List.mem_cons]
        have : ¬ sid = cam.static_id := fun hh => hc hh.symm
        simp [this]

lemma groupKeys_addCam (g : List (ℤ × Finset ℤ)) (cam : CAM) :
    groupKeys (addCamToGroups g cam) =
      if cam.static_id ∈ groupKeys g then groupKeys g
      else groupKeys g ++ [cam.static_id] := by
  induction g with
  | nil => simp [addCamToGroups, groupKeys]
  | cons e r ih =>
    by_cases he : e.1 = cam.static_id
    · simp [addCamToGroups, groupKeys, he]
    · have : ¬ cam.static_id = e.1 := fun h => he h.symm
      simp only [addCamToGroups, if_neg he, groupKeys, List.map_cons, List.mem_cons, this,
        false_or]
      rw [groupKeys] at ih
      by_cases hmem : cam.static_id ∈ r.map (fun e => e.1) <;> simp [hmem, ih, groupKeys]

lemma mem_groupKeys_addCam (g : List (ℤ × Finset ℤ)) (cam : CAM) (sid : ℤ) :
    sid ∈ groupKeys (addCamToGroups g cam) ↔ sid ∈ groupKeys g ∨ sid = cam.static_id := by
  rw [groupKeys_addCam]
  by_cases hmem : cam.static_id ∈ groupKeys g
  · simp only [if_pos hmem]
    constructor
    · exact Or.inl
    · rintro (h | rfl)
      · exact h
      · exact hmem
  · simp [if_neg hmem]

lemma groupKeys_nodup_addCam (g : List (ℤ × Finset ℤ)) (cam : CAM)
    (h : (groupKeys g).Nodup) : (groupKeys (addCamToGroups g cam)).Nodup := by
  rw [groupKeys_addCam]
  by_cases hmem : cam.static_id ∈ groupKeys g
  · simpa [if_pos hmem] using h
  · rw [if_neg hmem]
    simpa [List.nodup_append] using ⟨h, hmem⟩

lemma groupKeys_foldl_nodup :
    ∀ (cams : List CAM) (acc : List (ℤ × Finset ℤ)), (groupKeys acc).Nodup →
      (groupKeys (cams.foldl addCamToGroups acc)).Nodup := by
  intro cams
  induction cams with
  | nil => intro acc h; exact h
  | cons cam rest ih =>
    intro acc h
    exact ih (addCamToGroups acc cam) (groupKeys_nodup_addCam acc cam h)

lemma mem_groupKeys_foldl :
    ∀ (cams : List CAM) (acc : List (ℤ × Finset ℤ)) (sid : ℤ),
      sid ∈ groupKeys (cams.foldl addCamToGroups acc) ↔
        sid ∈ groupKeys acc ∨ sid ∈ cams.map (fun c => c.static_id) := by
  intro cams
  induction cams with
  | nil => intro acc sid; simp
  | cons cam rest ih =>
    intro acc sid
    rw [List.foldl_cons, ih (addCamToGroups acc cam) sid, mem_groupKeys_addCam]
    simp only [List.map_cons, List.mem_cons]
    tauto

lemma pyMin_isSome (l : List ℚ) (h : l ≠ []) : ∃ v, pyMin l = some v := by
  cases l with
  | nil => exact absurd rfl h
  | cons x xs => exact ⟨xs.foldl min x, rfl⟩

lemma pyMax_isSome (l : List ℚ) (h : l ≠ []) : ∃ v, pyMax l = some v := by
  cases l with
  | nil => exact absurd rfl h
  | cons x xs => exact ⟨xs.foldl max x, rfl⟩

lemma pyMedian_isSome (l : List ℚ) (h : l ≠ []) : ∃ v, pyMedian l = some v := by
  unfold pyMedian
  rw [if_neg (by simpa [List.length_eq_zero] using h)]
  by_cases hp : l.length % 2 = 1
  · exact ⟨_, by rw [if_pos hp]⟩
  · exact ⟨_, by rw [if_neg hp]⟩

lemma pyMean_isSome (l : List ℚ) (h : l ≠ []) : ∃ v, pyMean l = some v := by
  unfold pyMean
  rw [if_neg (by simpa [List.length_eq_zero] using h)]
  exact ⟨_, rfl⟩

lemma write_stats_eq_none_iff (pc : List (ℤ × ℚ)) :
    write_stats pc = none ↔ pc.length < 2 := by
  match pc with
  | [] => simp [write_stats, pyMin]
  | [x] =>
    simp only [write_stats, List.map_cons, List.map_nil, List.length_cons, List.length_nil]
    obtain ⟨v1, h1⟩ := pyMin_isSome [x.2] (by simp)
    obtain ⟨v2, h2⟩ := pyMax_isSome [x.2] (by simp)
    obtain ⟨v3, h3⟩ := pyMedian_isSome [x.2] (by simp)
    obtain ⟨v4, h4⟩ := pyMean_isSome [x.2] (by simp)
    rw [h1, h2, h3, h4]
    simp [pyStdevSq]
  | x :: y :: r =>
    simp only [write_stats, List.map_cons, List.length_cons]
    obtain ⟨v1, h1⟩ := pyMin_isSome (x.2 :: y.2 :: r.map (fun e => e.2)) (by simp)
    obtain ⟨v2, h2⟩ := pyMax_isSome (x.2 :: y.2 :: r.map (fun e => e.2)) (by simp)
    obtain ⟨v3, h3⟩ := pyMedian_isSome (x.2 :: y.2 :: r.map (fun e => e.2)) (by simp)
    obtain ⟨v4, h4⟩ := pyMean_isSome (x.2 :: y.2 :: r.map (fun e => e.2)) (by simp)
    rw [h1, h2, h3, h4]
    have hsd : ∃ w, pyStdevSq (x.2 :: y.2 :: r.map (fun e => e.2)) = some w := by
      unfold pyStdevSq
      rw [if_neg (by simp only [List.length_cons]; omega)]
      exact ⟨_, rfl⟩
    obtain ⟨w, hw⟩ := hsd
    rw [hw]
    simp only [Option.some_bind, Option.map_some]
    constructor
    · intro h
      exact absurd h (by simp)
    · intro h
      exact absurd h (by omega)

lemma lookupRate_map (sid : ℤ) (f : Finset ℤ → ℚ) :
    ∀ (g : List (ℤ × Finset ℤ)),
      lookupRate sid (g.map (fun e => (e.1, f e.2))) = Option.map f (lookupGroups sid g) := by
  intro g
  induction g with
  | nil => rfl
  | cons e r ih =>
    by_cases he : e.1 = sid <;> simp [lookupRate, lookupGroups, he, ih]

lemma pseudonyms_per_id_length (cams : List CAM) :
    (pseudonyms_per_id cams).length = (cams.map (fun c => c.static_id)).toFinset.card := by
  have hnodup : (groupKeys (pseudonyms_per_id cams)).Nodup :=
    groupKeys_foldl_nodup cams [] (by simp [groupKeys])
  have hmem : ∀ sid, sid ∈ groupKeys (pseudonyms_per_id cams) ↔
      sid ∈ cams.map (fun c => c.static_id) := by
    intro sid
    rw [pseudonyms_per_id, mem_groupKeys_foldl cams [] sid]
    simp [groupKeys]
  have hlen : (pseudonyms_per_id cams).length = (groupKeys (pseudonyms_per_id cams)).length := by
    simp [groupKeys]
  rw [hlen, ← List.toFinset_card_of_nodup hnodup]
  congr 1
  ext sid
  simp only [List.mem_toFinset]
  exact hmem sid

lemma lookupGroups_pseudonyms_per_id (cams : List CAM) (sid : ℤ) :
    lookupGroups sid (pseudonyms_per_id cams) =
      if sid ∈ cams.map (fun c => c.static_id) then some (pseudoFinset sid cams) else none := by
  rw [pseudonyms_per_id, lookupGroups_foldl cams [] sid]
  rfl

/-- Claim C9: with sim_time > 0, computing the distributional statistics
(min, max, median, mean, stdev) of the per-vehicle pseudonym-consumption
rates fails (none, modelling the raised StatisticsError or ValueError)
exactly when fewer than 2 distinct permanent ids occur in the CAM list —
with 0 vehicles min raises, with 1 vehicle stdev raises, with at least 2
everything is defined; and every vehicle rate present in the result equals
the number of distinct pseudonym ids of that vehicle divided by sim_time. -/
theorem C9_write_stats_fails_iff_fewer_than_two_vehicles (cams : List CAM) (sim_time : ℚ)
    (hsim : 0 < sim_time) :
    (write_stats (calculate_pseudonym_consumption cams sim_time) = none ↔
      (cams.map (fun c => c.static_id)).toFinset.card < 2) ∧
    (∀ (sid : ℤ) (r : ℚ),
      lookupRate sid (calculate_pseudonym_consumption cams sim_time) = some r →
      r = ((pseudoFinset sid cams).card : ℚ) / sim_time) := by
  constructor
  · rw [write_stats_eq_none_iff, calculate_pseudonym_consumption, List.length_map,
      pseudonyms_per_id_length]
  · intro sid r hr
    rw [calculate_pseudonym_consumption,
      lookupRate_map sid (fun s => (s.card : ℚ) / sim_time) (pseudonyms_per_id cams),
      lookupGroups_pseudonyms_per_id cams sid] at hr
    by_cases hmem : sid ∈ cams.map (fun c => c.static_id)
    · rw [if_pos hmem, Option.map_some'] at hr
      exact (Option.some_inj.mp hr).symm
    · rw [if_neg hmem] at hr
      simp at hr

/-- Witness for claim C9: two CAMs from two distinct vehicles (static ids
1 and 2, one pseudonym each) and sim_time = 2: the statistics are defined
(the left side of the iff is false, matching card 2 not below 2) and each
rate is 1/2. -/
theorem C9_write_stats_witness :
    (0 : ℚ) < 2 ∧
    ((write_stats (calculate_pseudonym_consumption
        [{ timestamp := 0, static_id := 1, pseudo_id := 10, longitude := 0, latitude := 0,
           width := 0, length := 0, speed := 0, heading := 0 },
         { timestamp := 0, static_id := 2, pseudo_id := 20, longitude := 0, latitude := 0,
           width := 0, length := 0, speed := 0, heading := 0 }] 2) = none ↔
      (([{ timestamp := 0, static_id := 1, pseudo_id := 10, longitude := 0, latitude := 0,
           width := 0, length := 0, speed := 0, heading := 0 },
         { timestamp := 0, static_id := 2, pseudo_id := 20, longitude := 0, latitude := 0,
           width := 0, length := 0, speed := 0, heading := 0 }] : List CAM).map
          (fun c => c.static_id)).toFinset.card < 2) ∧
    (∀ (sid : ℤ) (r : ℚ),
      lookupRate sid (calculate_pseudonym_consumption
        [{ timestamp := 0, static_id := 1, pseudo_id := 10, longitude := 0, latitude := 0,
           width := 0, length := 0, speed := 0, heading := 0 },
         { timestamp := 0, static_id := 2, pseudo_id := 20, longitude := 0, latitude := 0,
           width := 0, length := 0, speed := 0, heading := 0 }] 2) = some r →
      r = ((pseudoFinset sid
        [{ timestamp := 0, static_id := 1, pseudo_id := 10, longitude := 0, latitude := 0,
           width := 0, length := 0, speed := 0, heading := 0 },
         { timestamp := 0, static_id := 2, pseudo_id := 20, longitude := 0, latitude := 0,
           width := 0, length := 0, speed := 0, heading := 0 }]).card : ℚ) / 2)) :=
  ⟨by norm_num,
    C9_write_stats_fails_iff_fewer_than_two_vehicles _ 2 (by norm_num)⟩


lemma list_sum_map_le {α : Type} (l : List α) (f g : α → ℝ) (h : ∀ a ∈ l, f a ≤ g a) :
    (l.map f).sum ≤ (l.map g).sum := by
  induction l with
  | nil => simp
  | cons a l ih =>
    simp only [List.map_cons, List.sum_cons]
    have ha := h a (List.mem_cons_self a l)
    have hl := ih (fun x hx => h x (List.mem_cons_of_mem a hx))
    linarith

lemma list_sum_map_neg {α : Type} (l : List α) (f : α → ℝ) :
    (l.map (fun x => -f x)).sum = -((l.map f).sum) := by
  induction l with
  | nil => simp
  | cons a l ih => simp only [List.map_cons, List.sum_cons, ih]; ring

lemma list_sum_map_add {α : Type} (l : List α) (f g : α → ℝ) :
    (l.map (fun x => f x + g x)).sum = (l.map f).sum + (l.map g).sum := by
  induction l with
  | nil => simp
  | cons a l ih => simp only [List.map_cons, List.sum_cons, ih]; ring

lemma list_sum_map_sub {α : Type} (l : List α) (f g : α → ℝ) :
    (l.map (fun x => f x - g x)).sum = (l.map f).sum - (l.map g).sum := by
  induction l with
  | nil => simp
  | cons a l ih => simp only [List.map_cons, List.sum_cons, ih]; ring

lemma list_sum_map_div {α : Type} (l : List α) (f : α → ℝ) (c : ℝ) :
    (l.map (fun x => f x / c)).sum = (l.map f).sum / c := by
  induction l with
  | nil => simp
  | cons a l ih => simp only [List.map_cons, List.sum_cons, ih]; ring

lemma list_sum_map_mul_right {α : Type} (l : List α) (f : α → ℝ) (c : ℝ) :
    (l.map (fun x => f x * c)).sum = (l.map f).sum * c := by
  induction l with
  | nil => simp
  | cons a l ih => simp only [List.map_cons, List.sum_cons, ih]; ring

lemma list_sum_map_const {α : Type} (l : List α) (c : ℝ) :
    (l.map (fun _ => c)).sum = (l.length : ℝ) * c := by
  induction l with
  | nil => simp
  | cons a l ih =>
    simp only [List.map_cons, List.sum_cons, ih, List.length_cons]
    push_cast
    ring

lemma list_sum_map_nonpos {α : Type} (l : List α) (f : α → ℝ) (h : ∀ a ∈ l, f a ≤ 0) :
    (l.map f).sum ≤ 0 := by
  have := list_sum_map_le l f (fun _ => 0) h
  simpa using this

lemma nat_elem_le_list_sum : ∀ (l : List ℕ) (x : ℕ), x ∈ l → x ≤ l.sum := by
  intro l
  induction l with
  | nil => intro x hx; exact absurd hx (List.not_mem_nil x)
  | cons a l ih =>
    intro x hx
    rcases List.mem_cons.mp hx with rfl | hx
    · simp
    · have := ih x hx
      simp only [List.sum_cons]
      omega

lemma neg_p_logb_le (p k : ℝ) (hp : 0 < p) (hk : 0 < k) :
    -(p * Real.logb 2 p) ≤ (1 / k - p) / Real.log 2 + p * Real.logb 2 k := by
  have hlog2 : 0 < Real.log 2 := Real.log_pos one_lt_two
  have hx : 0 < 1 / (p * k) := by positivity
  have h1 : Real.logb 2 (1 / (p * k)) ≤ (1 / (p * k) - 1) / Real.log 2 := by
    rw [Real.logb]
    exact (div_le_div_iff_of_pos_right hlog2).mpr (Real.log_le_sub_one_of_pos hx)
  have h2 : Real.logb 2 (1 / (p * k)) = -(Real.logb 2 p) - Real.logb 2 k := by
    rw [one_div, Real.logb_inv, Real.logb_mul hp.ne' hk.ne']
    ring
  have h3 : p * (-(Real.logb 2 p) - Real.logb 2 k) ≤ p * ((1 / (p * k) - 1) / Real.log 2) :=
    mul_le_mul_of_nonneg_left (h2 ▸ h1) hp.le
  have h4 : p * ((1 / (p * k) - 1) / Real.log 2) = (1 / k - p) / Real.log 2 := by
    field_simp
    ring
  have h5 : p * (-(Real.logb 2 p) - Real.logb 2 k) =
      -(p * Real.logb 2 p) - p * Real.logb 2 k := by ring
  linarith

/-- Claim C7: for every non-empty anonymity set mapping pseudonyms to
positive CAM counts (distinct keys, every count at least 1), the EASS
computed by calculate_entropy_and_eass satisfies 0 <= EASS <= log2 of the
set size, and whenever the set has more than one member the degree of
anonymity computed by calculate_degree_of_anonymity lies in [0, 1].  The
upper bound is the Gibbs inequality applied pointwise through
neg_p_logb_le; the lower bound holds because every probability lies in
(0, 1]. -/
theorem C7_eass_bounds (s : List (ℤ × ℕ × ℤ)) (e : ℝ)
    (hne : s ≠ []) (hcounts : ∀ kv ∈ s, 1 ≤ kv.2.1)
    (hkeys : (s.map (fun kv => kv.1)).Nodup)
    (heass : calculate_entropy_and_eass s e) :
    (0 ≤ e ∧ e ≤ Real.logb 2 (s.length : ℝ)) ∧
    (∀ d : ℝ, 1 < s.length → calculate_degree_of_anonymity s e d → 0 ≤ d ∧ d ≤ 1) := by
  have hT : 0 < totalCams s := by
    cases s with
    | nil => exact absurd rfl hne
    | cons kv r =>
      have := hcounts kv (List.mem_cons_self kv r)
      simp only [totalCams, List.map_cons, List.sum_cons]
      omega
  have hTR : (0 : ℝ) < (totalCams s : ℝ) := by exact_mod_cast hT
  have hppos : ∀ kv ∈ s, (0 : ℝ) < (kv.2.1 : ℝ) / (totalCams s : ℝ) := by
    intro kv hkv
    have h1 : (0 : ℝ) < (kv.2.1 : ℝ) := by
      have := hcounts kv hkv
      exact_mod_cast Nat.lt_of_lt_of_le Nat.zero_lt_one this
    positivity
  have hple : ∀ kv ∈ s, (kv.2.1 : ℝ) / (totalCams s : ℝ) ≤ 1 := by
    intro kv hkv
    rw [div_le_one hTR]
    unfold totalCams
    exact_mod_cast nat_elem_le_list_sum (s.map (fun kv => kv.2.1)) kv.2.1
      (List.mem_map_of_mem (fun kv => kv.2.1) hkv)
  have hk0 : (0 : ℝ) < (s.length : ℝ) := by
    have : 0 < s.length := List.length_pos.mpr hne
    exact_mod_cast this
  rw [calculate_entropy_and_eass] at heass
  subst heass
  have hE0 : 0 ≤ -((s.map (fun kv =>
      ((kv.2.1 : ℝ) / (totalCams s : ℝ)) *
        Real.logb 2 ((kv.2.1 : ℝ) / (totalCams s : ℝ)))).sum) := by
    rw [neg_nonneg]
    refine list_sum_map_nonpos s _ (fun kv hkv => ?_)
    exact mul_nonpos_of_nonneg_of_nonpos (hppos kv hkv).le
      (Real.logb_nonpos one_lt_two (hppos kv hkv).le (hple kv hkv))
  have hsum1 : (s.map (fun kv => (kv.2.1 : ℝ) / (totalCams s : ℝ))).sum = 1 := by
    rw [list_sum_map_div, div_eq_one_iff_eq hTR.ne']
    have h : (((s.map (fun kv => kv.2.1)).sum : ℕ) : ℝ) =
        ((s.map (fun kv => kv.2.1)).map Nat.cast).sum :=
      Nat.cast_list_sum (s.map (fun kv => kv.2.1))
    rw [List.map_map] at h
    exact h.symm
  have hEle : -((s.map (fun kv =>
      ((kv.2.1 : ℝ) / (totalCams s : ℝ)) *
        Real.logb 2 ((kv.2.1 : ℝ) / (totalCams s : ℝ)))).sum) ≤
      Real.logb 2 (s.length : ℝ) := by
    have hpoint : ∀ kv ∈ s,
        -(((kv.2.1 : ℝ) / (totalCams s : ℝ)) *
            Real.logb 2 ((kv.2.1 : ℝ) / (totalCams s : ℝ))) ≤
          (1 / (s.length : ℝ) - (kv.2.1 : ℝ) / (totalCams s : ℝ)) / Real.log 2 +
            ((kv.2.1 : ℝ) / (totalCams s : ℝ)) * Real.logb 2 (s.length : ℝ) :=
      fun kv hkv => neg_p_logb_le _ _ (hppos kv hkv) hk0
    have hsum := list_sum_map_le s _ _ hpoint
    rw [list_sum_map_neg, list_sum_map_add, list_sum_map_div, list_sum_map_sub,
      list_sum_map_const, list_sum_map_mul_right, hsum1] at hsum
    have hkk : (s.length : ℝ) * (1 / (s.length : ℝ)) = 1 := by
      field_simp
    rw [hkk] at hsum
    simpa using hsum
  refine ⟨⟨hE0, hEle⟩, ?_⟩
  intro d hlen hdeg
  rw [calculate_degree_of_anonymity, if_neg (by omega)] at hdeg
  subst hdeg
  have h2k : (2 : ℝ) ≤ (s.length : ℝ) := by exact_mod_cast hlen
  have hlogb1 : 1 ≤ Real.logb 2 (s.length : ℝ) := by
    have h := Real.logb_le_logb_of_le one_lt_two (by norm_num : (0:ℝ) < 2) h2k
    rwa [show Real.logb 2 2 = 1 by norm_num [Real.logb_self_eq_one]] at h
  constructor
  · exact div_nonneg hE0 (by linarith)
  · rw [div_le_one (by linarith)]
    exact hEle

/-- Witness for claim C7: the two-pseudonym anonymity set with one CAM
each; its EASS is exactly 1 = log2 2, and the degree of anonymity is
defined. -/
theorem C7_eass_bounds_witness :
    (([(1, 1, 0), (2, 1, 0)] : List (ℤ × ℕ × ℤ)) ≠ []) ∧
    (∀ kv ∈ ([(1, 1, 0), (2, 1, 0)] : List (ℤ × ℕ × ℤ)), 1 ≤ kv.2.1) ∧
    (([(1, 1, 0), (2, 1, 0)] : List (ℤ × ℕ × ℤ)).map (fun kv => kv.1)).Nodup ∧
    calculate_entropy_and_eass [(1, 1, 0), (2, 1, 0)] 1 ∧
    ((0 ≤ (1 : ℝ) ∧
      (1 : ℝ) ≤ Real.logb 2 ((([(1, 1, 0), (2, 1, 0)] : List (ℤ × ℕ × ℤ)).length : ℝ))) ∧
     (∀ d : ℝ, 1 < ([(1, 1, 0), (2, 1, 0)] : List (ℤ × ℕ × ℤ)).length →
        calculate_degree_of_anonymity [(1, 1, 0), (2, 1, 0)] 1 d → 0 ≤ d ∧ d ≤ 1)) := by
  have h1 : (([(1, 1, 0), (2, 1, 0)] : List (ℤ × ℕ × ℤ))) ≠ [] := by simp
  have h2 : ∀ kv ∈ ([(1, 1, 0), (2, 1, 0)] : List (ℤ × ℕ × ℤ)), 1 ≤ kv.2.1 := by decide
  have h3 : (([(1, 1, 0), (2, 1, 0)] : List (ℤ × ℕ × ℤ)).map (fun kv => kv.1)).Nodup := by
    decide
  have h4 : calculate_entropy_and_eass [(1, 1, 0), (2, 1, 0)] 1 := by
    unfold calculate_entropy_and_eass totalCams
    norm_num
    rw [show (1 : ℝ) / 2 = (2 : ℝ)⁻¹ from one_div 2, Real.logb_inv]
    norm_num [Real.logb_self_eq_one]
  exact ⟨h1, h2, h3, h4, C7_eass_bounds _ 1 h1 h2 h3 h4⟩
